import Mathlib

/-!
Verification development for the mls-ds repository.

The repository ships only the cbindgen-generated FFI header
(src/mls-ffi/include/mls_ffi.h), which declares the group-messaging
operations but contains no function bodies.  The MLS-style engine behind
those declarations (ratchet tree, key schedule, group session state
machine, message protection) is therefore modelled here from the design
document, shallowly embedded: secrets are symbolic terms, AEAD is a
reversible symbolic seal/open pair, and every operation is an executable
Lean function.
-/

namespace Mls

/-- Modelled from the spec: the error taxonomy of section 7; the engine
code that raises these is missing from the repository (the header only
reports errors through MLSResult). -/
inductive MLSError where
  | unknownContext
  | unknownGroup
  | malformedMessage
  | duplicateKeyPackage
  | noMatchingEntry
  | confirmationTagMismatch
  | signatureVerificationFailed
  | epochMismatch
  | treeInvariantViolation
  | invalidLength
  deriving DecidableEq, Repr

/-- Modelled from the spec: symbolic secrets for the missing CryptoProvider.
A secret is either freshly generated randomness, the chained epoch
derivation Derive(prev, commit_secret, group_context), or an HKDF-style
labeled expand.  Distinct terms stand for computationally independent
secrets; equality of terms is the determinism of the KDF. -/
inductive Secret where
  | fresh (tag : Nat)
  | derive (prev : Secret) (commit : Secret) (group_id : List Nat) (epoch : Nat)
  | expand (parent : Secret) (label : String) (ctx : List Nat) (len : Nat)
  deriving DecidableEq, Repr

/-- Modelled from the spec: the per-epoch derived bundle of section 3
(EpochSecrets), missing from the repository. -/
structure EpochSecrets where
  joiner_secret : Secret
  welcome_secret : Secret
  epoch_secret : Secret
  sender_data_secret : Secret
  encryption_secret : Secret
  exporter_secret : Secret
  confirmation_key : Secret
  membership_key : Secret
  init_secret : Secret
  deriving DecidableEq, Repr

/-- Modelled from the spec: the KeySchedule of section 4.2, missing from
the repository.  The per-epoch joiner secret is the root of the bundle
(it is what a Welcome transports); the epoch secret and the seven
sub-secrets are expanded from it by fixed distinct labels. -/
def derive_epoch_secrets (js : Secret) : EpochSecrets :=
  let e := Secret.expand js "epoch" [] 32
  { joiner_secret := js
  , welcome_secret := Secret.expand js "welcome" [] 32
  , epoch_secret := e
  , sender_data_secret := Secret.expand e "sender data" [] 32
  , encryption_secret := Secret.expand e "encryption" [] 32
  , exporter_secret := Secret.expand e "exporter" [] 32
  , confirmation_key := Secret.expand e "confirmation" [] 32
  , membership_key := Secret.expand e "membership" [] 32
  , init_secret := Secret.expand e "init" [] 32 }

/-- Modelled from the spec: KeyPackage of section 3 (credential, public
init key, leaf node descriptor, signature); the engine structure is
missing from the repository. -/
structure KeyPackage where
  credential : List Nat
  init_key : Nat
  leaf_key : Nat
  signature : Nat
  deriving DecidableEq, Repr

/-- Modelled from the spec: the RatchetTree of section 4.1, missing from
the repository.  Only the leaf level is represented (a leaf is blank or
holds a KeyPackage); the claims under verification concern the leaf
capacity and occupancy, and parent node key material plays no part in
them. -/
structure RatchetTree where
  leaves : List (Option KeyPackage)
  deriving DecidableEq, Repr

/-- Leaf capacity of the tree (the spec's tree size). -/
def RatchetTree.size (t : RatchetTree) : Nat := t.leaves.length

/-- Number of non-blank leaves (the spec's member count). -/
def RatchetTree.member_count (t : RatchetTree) : Nat :=
  t.leaves.countP (fun l => l.isSome)

/-- True when some leaf is blank. -/
def RatchetTree.has_blank (t : RatchetTree) : Bool :=
  t.leaves.any (fun l => l.isNone)

/-- Modelled from the spec: add_leaf of section 4.1 fills the leftmost
blank leaf, or doubles the tree size if none is blank (all new leaves
start blank) and fills the first new leaf.  Returns the new tree and the
LeafIndex used. -/
def RatchetTree.add_leaf (t : RatchetTree) (kp : KeyPackage) : RatchetTree × Nat :=
  if t.has_blank then
    let i := t.leaves.findIdx (fun l => l.isNone)
    (⟨t.leaves.set i (some kp)⟩, i)
  else
    (⟨(t.leaves ++ List.replicate t.leaves.length none).set t.leaves.length (some kp)⟩,
     t.leaves.length)

/-- Modelled from the spec: remove_leaf of section 4.1 marks the leaf
blank and does not shrink the tree. -/
def RatchetTree.remove_leaf (t : RatchetTree) (i : Nat) : RatchetTree :=
  ⟨t.leaves.set i none⟩

/-- Modelled from the spec: update_leaf of section 4.1 replaces the leaf
key of an occupied leaf. -/
def RatchetTree.update_leaf (t : RatchetTree) (i : Nat) (new_key : Nat) : RatchetTree :=
  match t.leaves[i]? with
  | some (some kp) => ⟨t.leaves.set i (some { kp with leaf_key := new_key })⟩
  | _ => t

/-- Modelled from the spec: the Proposal variants of section 3. -/
inductive Proposal where
  | add (kp : KeyPackage)
  | remove (leaf : Nat)
  | update (leaf : Nat) (new_key : Nat)
  deriving DecidableEq, Repr

/-- Applies one proposal to the tree. -/
def apply_proposal (t : RatchetTree) : Proposal → RatchetTree
  | .add kp => (t.add_leaf kp).1
  | .remove i => t.remove_leaf i
  | .update i k => t.update_leaf i k

/-- Modelled from the spec: a Commit of section 3 (ordered proposals, an
updated tree path carried as the committer's fresh path secret, and a
confirmation tag over the resulting epoch). -/
structure Commit where
  proposals : List Proposal
  committer_leaf : Nat
  path_secret : Secret
  confirmation_tag : Secret
  deriving DecidableEq, Repr

/-- Modelled from the spec: a Welcome of section 3 (one GroupSecrets
entry per joiner keyed by the joiner's init key, plus the group context
snapshot: group id, epoch, ratchet tree). -/
structure Welcome where
  group_id : List Nat
  epoch : Nat
  tree : RatchetTree
  entries : List (Nat × Secret)
  deriving DecidableEq, Repr

/-- Modelled from the spec: one member's GroupSession state of section
4.3, missing from the repository.  is_active is false once the local
member has been removed (the Removed terminal state). -/
structure GroupSession where
  group_id : List Nat
  epoch : Nat
  tree : RatchetTree
  secrets : EpochSecrets
  own_leaf : Nat
  next_generation : Nat
  is_active : Bool
  rng : Nat
  deriving DecidableEq, Repr

/-- Modelled from the spec: the root resolution of the updated path
defines the commit secret (section 4.1). -/
def path_to_commit_secret (ps : Secret) : Secret :=
  Secret.expand ps "path" [] 32

/-- Modelled from the spec: the next epoch's joiner secret is chained
from the previous bundle's init secret, the commit secret and the group
context (section 4.2). -/
def next_joiner_secret (s : GroupSession) (commit_secret : Secret) : Secret :=
  Secret.derive s.secrets.init_secret commit_secret s.group_id (s.epoch + 1)

/-- Confirmation tag over a given epoch under a confirmation key. -/
def confirmation_tag_for (ck : Secret) (gid : List Nat) (epoch : Nat) : Secret :=
  Secret.expand ck "confirmation tag" (gid ++ [epoch]) 32

/-- The tag a received Commit must carry: computed against the new
epoch's confirmation_key obtained by running the key schedule forward. -/
def expected_confirmation_tag (s : GroupSession) (c : Commit) : Secret :=
  confirmation_tag_for
    (derive_epoch_secrets (next_joiner_secret s (path_to_commit_secret c.path_secret))).confirmation_key
    s.group_id (s.epoch + 1)

/-- True when the proposal list removes the local member's leaf. -/
def removes_own_leaf (s : GroupSession) (ps : List Proposal) : Bool :=
  ps.any (fun p => match p with
    | .remove i => i == s.own_leaf
    | _ => false)

/-- Modelled from the spec: process_commit of section 4.3, missing from
the repository.  Decodes the Commit, applies the proposals and the path
update, recomputes the commit secret, derives the next epoch's bundle
and verifies the confirmation tag against the new confirmation_key; on
mismatch it fails with ConfirmationTagMismatch and the session is not
mutated (atomic apply-or-reject). -/
def process_commit (s : GroupSession) (c : Commit) : GroupSession × Except MLSError Unit :=
  if s.is_active then
    if c.confirmation_tag = expected_confirmation_tag s c then
      ({ s with
          tree := c.proposals.foldl apply_proposal s.tree
        , epoch := s.epoch + 1
        , secrets := derive_epoch_secrets (next_joiner_secret s (path_to_commit_secret c.path_secret))
        , next_generation := 0
        , is_active := !removes_own_leaf s c.proposals }, .ok ())
    else (s, .error .confirmationTagMismatch)
  else (s, .error .unknownGroup)

/-- Authenticated data bound by message protection: group id, epoch,
sender and generation (section 4.3, encrypt_message). -/
structure FrameAAD where
  group_id : List Nat
  epoch : Nat
  sender : Nat
  generation : Nat
  deriving DecidableEq, Repr

/-- Modelled from the spec: a symbolic AEAD ciphertext for the missing
CryptoProvider; it records the key, the nonce input and the
authenticated data it was sealed under. -/
structure AEADCiphertext where
  key : Secret
  nonce : Nat × Nat
  aad : FrameAAD
  body : List Nat
  deriving DecidableEq, Repr

/-- Symbolic AEAD seal. -/
def aead_seal (k : Secret) (n : Nat × Nat) (ad : FrameAAD) (m : List Nat) : AEADCiphertext :=
  ⟨k, n, ad, m⟩

/-- Symbolic AEAD open: succeeds exactly when key, nonce and
authenticated data match what the ciphertext was sealed under. -/
def aead_open (k : Secret) (n : Nat × Nat) (ad : FrameAAD) (c : AEADCiphertext) : Option (List Nat) :=
  if c.key = k ∧ c.nonce = n ∧ c.aad = ad then some c.body else none

/-- Modelled from the spec: the framed Private application message of
section 3 (sender identity, epoch binding, per-sender generation
counter, ciphertext). -/
structure FramedMessage where
  group_id : List Nat
  epoch : Nat
  sender : Nat
  generation : Nat
  ciphertext : AEADCiphertext
  deriving DecidableEq, Repr

/-- Per-sender, per-generation message key expanded from the epoch's
encryption secret (section 4.3). -/
def message_key (es : EpochSecrets) (sender generation : Nat) : Secret :=
  Secret.expand es.encryption_secret "message" [sender, generation] 32

/-- Modelled from the spec: encrypt_message of section 4.3, missing from
the repository.  Derives the per-sender per-generation key from the
encryption secret, AEAD-seals the plaintext with authenticated data
binding group id, epoch, sender and generation, and advances the
sender's generation counter. -/
def encrypt_message (s : GroupSession) (m : List Nat) : GroupSession × Except MLSError FramedMessage :=
  if s.is_active then
    let g := s.next_generation
    let ad : FrameAAD := ⟨s.group_id, s.epoch, s.own_leaf, g⟩
    ({ s with next_generation := g + 1 },
     .ok ⟨s.group_id, s.epoch, s.own_leaf, g,
          aead_seal (message_key s.secrets s.own_leaf g) (s.own_leaf, g) ad m⟩)
  else (s, .error .unknownGroup)

/-- Modelled from the spec: decrypt_message of section 4.3, missing from
the repository.  Rejects frames whose embedded epoch differs from the
session's current epoch with EpochMismatch, then derives the matching
generation key and AEAD-opens against the session's own group id and
epoch. -/
def decrypt_message (s : GroupSession) (f : FramedMessage) : GroupSession × Except MLSError (List Nat) :=
  if s.is_active then
    if f.epoch = s.epoch then
      let ad : FrameAAD := ⟨s.group_id, s.epoch, f.sender, f.generation⟩
      match aead_open (message_key s.secrets f.sender f.generation) (f.sender, f.generation) ad f.ciphertext with
      | some m => (s, .ok m)
      | none => (s, .error .signatureVerificationFailed)
    else (s, .error .epochMismatch)
  else (s, .error .unknownGroup)

/-- Modelled from the spec: the HKDF-style bound on export_secret's
requested length (255 times the 32-byte hash length); beyond it a
request is oversized. -/
def max_export_length : Nat := 255 * 32

/-- Numeric weight of a label, used by the byte expansion below. -/
def label_weight (l : String) : Nat := (l.toList.map Char.toNat).sum

/-- Structural numeric encoding of a symbolic secret. -/
def secret_rank : Secret → Nat
  | .fresh tag => tag + 1
  | .derive a b gid e => 2 * secret_rank a + 3 * secret_rank b + gid.sum + e + 2
  | .expand a label ctx len => 5 * secret_rank a + label_weight label + ctx.sum + len + 3

/-- Deterministic byte output of a labeled expand, len bytes long. -/
def export_bytes (sec : Secret) (len : Nat) : List Nat :=
  (List.range len).map (fun i => (secret_rank sec + i) % 256)

/-- Modelled from the spec: export_secret of sections 4.2 and 4.3,
missing from the repository.  Zero-length and oversized requests fail
with InvalidLength; otherwise the output is a labeled expand of the
current exporter_secret, a deterministic function of the epoch secret,
label, context and length. -/
def export_secret (s : GroupSession) (label : String) (ctx : List Nat) (len : Nat) : Except MLSError (List Nat) :=
  if len = 0 ∨ max_export_length < len then .error .invalidLength
  else .ok (export_bytes (Secret.expand s.secrets.exporter_secret label ctx len) len)

/-- True when a KeyPackage repeats a credential or init key already
present in the tree (section 4.3, DuplicateKeyPackage). -/
def has_duplicate (t : RatchetTree) (kp : KeyPackage) : Bool :=
  t.leaves.any (fun l => match l with
    | some q => q.credential == kp.credential || q.init_key == kp.init_key
    | none => false)

/-- Modelled from the spec: add_members of section 4.3, missing from the
repository.  Builds Add proposals for each KeyPackage, adds the leaves,
generates a fresh path secret at the committer's leaf, derives the next
epoch's secrets, self-applies the Commit and packages a Welcome with one
GroupSecrets entry per joiner.  Fails with DuplicateKeyPackage when a
KeyPackage repeats an already-present credential or init key. -/
def add_members (s : GroupSession) (kps : List KeyPackage) : GroupSession × Except MLSError (Commit × Welcome) :=
  if s.is_active then
    if kps.any (fun kp => has_duplicate s.tree kp) then (s, .error .duplicateKeyPackage)
    else
      let new_tree := kps.foldl (fun t kp => (t.add_leaf kp).1) s.tree
      let ps := Secret.fresh s.rng
      let bundle := derive_epoch_secrets (next_joiner_secret s (path_to_commit_secret ps))
      let commit : Commit :=
        ⟨kps.map Proposal.add, s.own_leaf, ps,
         confirmation_tag_for bundle.confirmation_key s.group_id (s.epoch + 1)⟩
      let welcome : Welcome :=
        ⟨s.group_id, s.epoch + 1, new_tree,
         kps.map (fun kp => (kp.init_key, bundle.joiner_secret))⟩
      ({ s with
          tree := new_tree
        , epoch := s.epoch + 1
        , secrets := bundle
        , next_generation := 0
        , rng := s.rng + 1 }, .ok (commit, welcome))
  else (s, .error .unknownGroup)

/-- Leaf index of a KeyPackage in a tree, 0 when absent. -/
def find_leaf_index (t : RatchetTree) (kp : KeyPackage) : Nat :=
  (t.leaves.findIdx? (fun l => l == some kp)).getD 0

/-- Modelled from the spec: process_welcome of section 4.3, missing from
the repository.  Locates the GroupSecrets entry matching the caller's
KeyPackage init key (NoMatchingEntry when none matches), reconstructs
the tree from the embedded snapshot, derives the epoch secrets from the
contained joiner secret and enters Active at the Welcome's epoch. -/
def process_welcome (w : Welcome) (kp : KeyPackage) : Except MLSError GroupSession :=
  match w.entries.lookup kp.init_key with
  | none => .error .noMatchingEntry
  | some js =>
    .ok { group_id := w.group_id
        , epoch := w.epoch
        , tree := w.tree
        , secrets := derive_epoch_secrets js
        , own_leaf := find_leaf_index w.tree kp
        , next_generation := 0
        , is_active := true
        , rng := 0 }

/-- Modelled from the spec: the context registry of section 6, a map
from group id to the owning session plus a freshness counter; missing
from the repository (the header only exposes opaque handles). -/
structure MLSContext where
  groups : List (List Nat × GroupSession)
  rng : Nat
  deriving DecidableEq, Repr

/-- Modelled from the spec: create_group of section 4.3, missing from
the repository.  Builds a 1-leaf tree, epoch 0 and fresh init secrets,
registers the session and returns the GroupId. -/
def create_group (ctx : MLSContext) (identity : List Nat) : MLSContext × List Nat :=
  let gid := identity ++ [ctx.rng]
  let creator : KeyPackage := ⟨identity, 2 * ctx.rng, 2 * ctx.rng + 1, 0⟩
  let s : GroupSession :=
    { group_id := gid
    , epoch := 0
    , tree := ⟨[some creator]⟩
    , secrets := derive_epoch_secrets (Secret.fresh ctx.rng)
    , own_leaf := 0
    , next_generation := 0
    , is_active := true
    , rng := 0 }
  ({ groups := (gid, s) :: ctx.groups, rng := ctx.rng + 1 }, gid)

/-- Modelled from the spec: get_epoch of section 4.3 and the header's
mls_get_epoch, whose body is missing from the repository; returns 0 when
the group is not present, else the group's current epoch. -/
def get_epoch (ctx : MLSContext) (gid : List Nat) : Nat :=
  match ctx.groups.lookup gid with
  | some s => s.epoch
  | none => 0

/-- Result success test. -/
def is_ok {ε α : Type} : Except ε α → Bool
  | .ok _ => true
  | .error _ => false

/-- Runs a list of received commits through a session, keeping the state
the engine keeps (rejected commits leave it unchanged). -/
def run_commits (s : GroupSession) (cs : List Commit) : GroupSession :=
  cs.foldl (fun st c => (process_commit st c).1) s

/-- Number of commits in the list the session accepts, in order. -/
def accepted_count : GroupSession → List Commit → Nat
  | _, [] => 0
  | s, c :: rest =>
    (if is_ok (process_commit s c).2 then 1 else 0) + accepted_count (process_commit s c).1 rest

/-- A leaf-level tree operation: the add_leaf and remove_leaf of section
4.1. -/
inductive TreeOp where
  | add (kp : KeyPackage)
  | remove (leaf : Nat)
  deriving DecidableEq, Repr

/-- Applies one tree operation. -/
def apply_tree_op (t : RatchetTree) : TreeOp → RatchetTree
  | .add kp => (t.add_leaf kp).1
  | .remove i => t.remove_leaf i

/-- Applies a sequence of tree operations in order. -/
def apply_tree_ops (t : RatchetTree) (ops : List TreeOp) : RatchetTree :=
  ops.foldl apply_tree_op t

/-- The single-leaf tree a freshly created group seeds (section 4.3). -/
def initial_tree (kp : KeyPackage) : RatchetTree := ⟨[some kp]⟩

/-- Concrete key package used by the evaluation witnesses. -/
def sample_kp : KeyPackage := ⟨[1], 1, 2, 0⟩

/-- Concrete freshly-created session used by the evaluation witnesses. -/
def sample_session : GroupSession :=
  { group_id := [1, 0]
  , epoch := 0
  , tree := ⟨[some sample_kp]⟩
  , secrets := derive_epoch_secrets (Secret.fresh 0)
  , own_leaf := 0
  , next_generation := 0
  , is_active := true
  , rng := 0 }

/-- A session holding the same epoch secrets as sample_session but
differing in every other field. -/
def sample_session_b : GroupSession :=
  { sample_session with
      group_id := [9, 9]
      epoch := 7
      own_leaf := 3
      next_generation := 4
      rng := 5 }

/-- A frame bound to epoch 5, while sample_session is at epoch 0. -/
def sample_frame_epoch5 : FramedMessage :=
  ⟨[1, 0], 5, 0, 0, ⟨Secret.fresh 0, (0, 0), ⟨[], 0, 0, 0⟩, []⟩⟩

/-- A commit whose confirmation tag is a random value, hence does not
verify. -/
def sample_bad_commit : Commit := ⟨[], 0, Secret.fresh 42, Secret.fresh 99⟩

/-- Key package of a prospective joiner, distinct from the creator's. -/
def sample_added_kp : KeyPackage := ⟨[2], 10, 11, 0⟩

/-- The commit and welcome add_members produces for the sample joiner. -/
def sample_cw : Commit × Welcome :=
  match (add_members sample_session [sample_added_kp]).2 with
  | .ok cw => cw
  | .error _ => ⟨⟨[], 0, Secret.fresh 0, Secret.fresh 0⟩, ⟨[], 0, ⟨[]⟩, []⟩⟩

/-- C5: a session at epoch n rejects any frame embedded with a different
epoch, failing with EpochMismatch and returning no plaintext. -/
theorem decrypt_message_epoch_mismatch (s : GroupSession) (f : FramedMessage)
    (hact : s.is_active = true) (hne : f.epoch ≠ s.epoch) :
    decrypt_message s f = (s, .error .epochMismatch) := by
  simp [decrypt_message, hact, hne]

/-- Evaluation of decrypt_message_epoch_mismatch at a concrete session
and a frame bound to epoch 5. -/
theorem decrypt_message_epoch_mismatch_witness :
    sample_session.is_active = true ∧
    sample_frame_epoch5.epoch ≠ sample_session.epoch ∧
    decrypt_message sample_session sample_frame_epoch5 = (sample_session, .error .epochMismatch) :=
  ⟨rfl, by decide,
   decrypt_message_epoch_mismatch sample_session sample_frame_epoch5 rfl (by decide)⟩

/-- C7: export_secret fails with InvalidLength on a zero-length or
oversized request, returning no secret bytes. -/
theorem export_secret_invalid_length (s : GroupSession) (label : String)
    (ctx : List Nat) (len : Nat) (h : len = 0 ∨ max_export_length < len) :
    export_secret s label ctx len = .error .invalidLength := by
  unfold export_secret
  rw [if_pos h]

/-- Evaluation of export_secret_invalid_length at length zero. -/
theorem export_secret_invalid_length_witness :
    ((0 : Nat) = 0 ∨ max_export_length < 0) ∧
    export_secret sample_session "app data" [] 0 = .error .invalidLength :=
  ⟨Or.inl rfl, export_secret_invalid_length sample_session "app data" [] 0 (Or.inl rfl)⟩

/-- C6: on two sessions holding the same epoch secrets, export_secret is
byte-for-byte identical for every label, context and valid length, and
returns exactly the requested number of bytes; the output depends only
on the epoch secrets, label, context and length. -/
theorem export_secret_deterministic (s1 s2 : GroupSession) (label : String)
    (ctx : List Nat) (len : Nat) (hsec : s1.secrets = s2.secrets)
    (h0 : 0 < len) (hmax : len ≤ max_export_length) :
    export_secret s1 label ctx len = export_secret s2 label ctx len ∧
    ∃ bs, export_secret s1 label ctx len = .ok bs ∧ bs.length = len := by
  have hcond : ¬(len = 0 ∨ max_export_length < len) := by omega
  unfold export_secret
  rw [if_neg hcond, if_neg hcond, hsec]
  exact ⟨rfl, _, rfl, by simp [export_bytes]⟩

/-- Evaluation of export_secret_deterministic on two sessions that share
epoch secrets but differ in group id, epoch and counters, at length
32. -/
theorem export_secret_deterministic_witness :
    sample_session.secrets = sample_session_b.secrets ∧
    0 < 32 ∧ 32 ≤ max_export_length ∧
    (export_secret sample_session "app data" [1] 32 = export_secret sample_session_b "app data" [1] 32 ∧
     ∃ bs, export_secret sample_session "app data" [1] 32 = .ok bs ∧ bs.length = 32) :=
  ⟨rfl, by decide, by decide,
   export_secret_deterministic sample_session sample_session_b "app data" [1] 32 rfl
     (by decide) (by decide)⟩

/-- C2: a received Commit whose confirmation tag does not verify against
the new epoch's confirmation key is rejected with
ConfirmationTagMismatch and the whole session state, epoch, tree and
epoch secrets included, is returned exactly unchanged. -/
theorem process_commit_tag_mismatch (s : GroupSession) (c : Commit)
    (hact : s.is_active = true)
    (htag : c.confirmation_tag ≠ expected_confirmation_tag s c) :
    process_commit s c = (s, .error .confirmationTagMismatch) := by
  simp [process_commit, hact, htag]

/-- Evaluation of process_commit_tag_mismatch at a concrete session and
a commit carrying a random tag. -/
theorem process_commit_tag_mismatch_witness :
    sample_session.is_active = true ∧
    sample_bad_commit.confirmation_tag ≠ expected_confirmation_tag sample_session sample_bad_commit ∧
    process_commit sample_session sample_bad_commit = (sample_session, .error .confirmationTagMismatch) :=
  ⟨rfl, by decide,
   process_commit_tag_mismatch sample_session sample_bad_commit rfl (by decide)⟩

/-- C1: in an active session, encrypting any plaintext, the empty one
included, and then decrypting the resulting frame in the same session
and epoch returns the original plaintext exactly. -/
theorem encrypt_decrypt_round_trip (s : GroupSession) (m : List Nat)
    (hact : s.is_active = true) :
    ∃ f : FramedMessage, (encrypt_message s m).2 = Except.ok f ∧
      (decrypt_message (encrypt_message s m).1 f).2 = Except.ok m := by
  refine ⟨⟨s.group_id, s.epoch, s.own_leaf, s.next_generation,
    aead_seal (message_key s.secrets s.own_leaf s.next_generation)
      (s.own_leaf, s.next_generation)
      ⟨s.group_id, s.epoch, s.own_leaf, s.next_generation⟩ m⟩, ?_, ?_⟩
  · simp [encrypt_message, hact]
  · simp [encrypt_message, decrypt_message, hact, aead_open, aead_seal, message_key]

/-- Evaluation of encrypt_decrypt_round_trip at a concrete session and
plaintext. -/
theorem encrypt_decrypt_round_trip_witness :
    sample_session.is_active = true ∧
    ∃ f : FramedMessage, (encrypt_message sample_session [3, 1, 4]).2 = Except.ok f ∧
      (decrypt_message (encrypt_message sample_session [3, 1, 4]).1 f).2 = Except.ok [3, 1, 4] :=
  ⟨rfl, encrypt_decrypt_round_trip sample_session [3, 1, 4] rfl⟩

/-- C10: encrypting the same plaintext twice from the same sender in the
same epoch yields two distinct frames, the second carrying a generation
counter exactly one above the first, and both decrypt back to the
plaintext when processed in order. -/
theorem encrypt_twice_distinct (s : GroupSession) (m : List Nat)
    (hact : s.is_active = true) :
    ∃ f1 f2 : FramedMessage,
      (encrypt_message s m).2 = Except.ok f1 ∧
      (encrypt_message (encrypt_message s m).1 m).2 = Except.ok f2 ∧
      f2.generation = f1.generation + 1 ∧
      f1 ≠ f2 ∧
      (decrypt_message (encrypt_message (encrypt_message s m).1 m).1 f1).2 = Except.ok m ∧
      (decrypt_message
        (decrypt_message (encrypt_message (encrypt_message s m).1 m).1 f1).1 f2).2 = Except.ok m := by
  refine ⟨⟨s.group_id, s.epoch, s.own_leaf, s.next_generation,
    aead_seal (message_key s.secrets s.own_leaf s.next_generation)
      (s.own_leaf, s.next_generation)
      ⟨s.group_id, s.epoch, s.own_leaf, s.next_generation⟩ m⟩,
    ⟨s.group_id, s.epoch, s.own_leaf, s.next_generation + 1,
    aead_seal (message_key s.secrets s.own_leaf (s.next_generation + 1))
      (s.own_leaf, s.next_generation + 1)
      ⟨s.group_id, s.epoch, s.own_leaf, s.next_generation + 1⟩ m⟩, ?_, ?_, rfl, ?_, ?_, ?_⟩
  · simp [encrypt_message, hact]
  · simp [encrypt_message, hact]
  · intro heq
    have hg := congrArg FramedMessage.generation heq
    simp at hg
  · simp [encrypt_message, decrypt_message, hact, aead_open, aead_seal, message_key]
  · simp [encrypt_message, decrypt_message, hact, aead_open, aead_seal, message_key]

/-- Evaluation of encrypt_twice_distinct at a concrete session and
plaintext. -/
theorem encrypt_twice_distinct_witness :
    sample_session.is_active = true ∧
    ∃ f1 f2 : FramedMessage,
      (encrypt_message sample_session [2]).2 = Except.ok f1 ∧
      (encrypt_message (encrypt_message sample_session [2]).1 [2]).2 = Except.ok f2 ∧
      f2.generation = f1.generation + 1 ∧
      f1 ≠ f2 ∧
      (decrypt_message (encrypt_message (encrypt_message sample_session [2]).1 [2]).1 f1).2 = Except.ok [2] ∧
      (decrypt_message
        (decrypt_message (encrypt_message (encrypt_message sample_session [2]).1 [2]).1 f1).1 f2).2 = Except.ok [2] :=
  ⟨rfl, encrypt_twice_distinct sample_session [2] rfl⟩

/-- Helper: a commit is either accepted, advancing the epoch by exactly
one, or rejected, leaving the session untouched. -/
theorem process_commit_accept_or_reject (s : GroupSession) (c : Commit) :
    (is_ok (process_commit s c).2 = true ∧ (process_commit s c).1.epoch = s.epoch + 1) ∨
    (is_ok (process_commit s c).2 = false ∧ (process_commit s c).1 = s) := by
  unfold process_commit
  by_cases hact : s.is_active = true
  · by_cases htag : c.confirmation_tag = expected_confirmation_tag s c
    · left; simp [hact, htag, is_ok]
    · right; simp [hact, htag, is_ok]
  · right; simp [hact, is_ok]

/-- Helper: the epoch after running a list of received commits is the
starting epoch plus the number of accepted commits. -/
theorem run_commits_epoch_eq (s : GroupSession) (cs : List Commit) :
    (run_commits s cs).epoch = s.epoch + accepted_count s cs := by
  induction cs generalizing s with
  | nil => simp [run_commits, accepted_count]
  | cons c rest ih =>
    have hrun : run_commits s (c :: rest) = run_commits (process_commit s c).1 rest := rfl
    have hacc : accepted_count s (c :: rest) =
        (if is_ok (process_commit s c).2 then 1 else 0) +
          accepted_count (process_commit s c).1 rest := rfl
    rcases process_commit_accept_or_reject s c with ⟨h1, h2⟩ | ⟨h1, h2⟩
    · rw [hrun, ih, h2, hacc, if_pos h1]
      omega
    · rw [hrun, ih, h2, hacc, h1]
      simp [h2]

/-- C3: the epoch counter starts at 0 on group creation, advances by
exactly 1 per accepted Commit so that after a run of commits it equals
the initial epoch plus the number accepted, and no operation decreases
it. -/
theorem epoch_counter_properties (s : GroupSession) (cs : List Commit) :
    (run_commits s cs).epoch = s.epoch + accepted_count s cs ∧
    (∀ c : Commit, is_ok (process_commit s c).2 = true →
      (process_commit s c).1.epoch = s.epoch + 1) ∧
    (∀ c : Commit, s.epoch ≤ (process_commit s c).1.epoch) ∧
    (∀ kps : List KeyPackage, s.epoch ≤ (add_members s kps).1.epoch) ∧
    (∀ m : List Nat, (encrypt_message s m).1.epoch = s.epoch) ∧
    (∀ f : FramedMessage, (decrypt_message s f).1.epoch = s.epoch) ∧
    (∀ ctx : MLSContext, ∀ idty : List Nat,
      get_epoch (create_group ctx idty).1 (create_group ctx idty).2 = 0) := by
  refine ⟨run_commits_epoch_eq s cs, ?_, ?_, ?_, ?_, ?_, ?_⟩
  · intro c hok
    rcases process_commit_accept_or_reject s c with ⟨_, h2⟩ | ⟨h1, _⟩
    · exact h2
    · rw [hok] at h1; cases h1
  · intro c
    rcases process_commit_accept_or_reject s c with ⟨_, h2⟩ | ⟨_, h2⟩ <;> rw [h2]
    omega
  · intro kps
    unfold add_members
    by_cases hact : s.is_active = true
    · by_cases hdup : (kps.any fun kp => has_duplicate s.tree kp) = true
      · simp [hact, hdup]
      · simp [hact, hdup]
    · simp [hact]
  · intro m
    unfold encrypt_message
    by_cases hact : s.is_active = true <;> simp [hact]
  · intro f
    unfold decrypt_message
    by_cases hact : s.is_active = true
    · by_cases hep : f.epoch = s.epoch
      · simp only [hact, if_true, hep, if_pos]
        cases aead_open (message_key s.secrets f.sender f.generation)
          (f.sender, f.generation) ⟨s.group_id, s.epoch, f.sender, f.generation⟩ f.ciphertext <;> simp
      · simp [hact, hep]
    · simp [hact]
  · intro ctx idty
    unfold create_group get_epoch
    simp [List.lookup]

/-- Helper: when a blank leaf exists, add_leaf only fills it and the
leaf capacity is unchanged. -/
theorem add_leaf_size_blank (t : RatchetTree) (kp : KeyPackage)
    (h : t.has_blank = true) : ((t.add_leaf kp).1).size = t.size := by
  simp [RatchetTree.add_leaf, h, RatchetTree.size]

/-- Helper: when no blank leaf remains, add_leaf doubles the leaf
capacity. -/
theorem add_leaf_size_full (t : RatchetTree) (kp : KeyPackage)
    (h : t.has_blank = false) : ((t.add_leaf kp).1).size = 2 * t.size := by
  simp [RatchetTree.add_leaf, h, RatchetTree.size]
  omega

/-- Helper: remove_leaf only blanks a leaf and never shrinks the
tree. -/
theorem remove_leaf_size (t : RatchetTree) (i : Nat) :
    (t.remove_leaf i).size = t.size := by
  simp [RatchetTree.remove_leaf, RatchetTree.size]

/-- Helper: at most as many occupied leaves as leaf slots. -/
theorem member_count_le_size (t : RatchetTree) : t.member_count ≤ t.size :=
  List.countP_le_length _

/-- Helper: one tree operation preserves power-of-two leaf capacity. -/
theorem apply_tree_op_pow2 (t : RatchetTree) (op : TreeOp)
    (h : ∃ k, t.size = 2 ^ k) : ∃ k, (apply_tree_op t op).size = 2 ^ k := by
  obtain ⟨k, hk⟩ := h
  cases op with
  | add kp =>
    by_cases hb : t.has_blank = true
    · exact ⟨k, by rw [apply_tree_op, add_leaf_size_blank t kp hb, hk]⟩
    · have hb' : t.has_blank = false := by
        revert hb; cases t.has_blank <;> simp
      refine ⟨k + 1, ?_⟩
      rw [apply_tree_op, add_leaf_size_full t kp hb', hk, pow_succ, Nat.mul_comm]
  | remove i => exact ⟨k, by rw [apply_tree_op, remove_leaf_size, hk]⟩

/-- Helper: any sequence of tree operations preserves power-of-two leaf
capacity. -/
theorem apply_tree_ops_pow2 (t : RatchetTree) (ops : List TreeOp)
    (h : ∃ k, t.size = 2 ^ k) : ∃ k, (apply_tree_ops t ops).size = 2 ^ k := by
  induction ops generalizing t with
  | nil => simpa [apply_tree_ops] using h
  | cons op rest ih =>
    have hstep : apply_tree_ops t (op :: rest) = apply_tree_ops (apply_tree_op t op) rest := rfl
    rw [hstep]
    exact ih _ (apply_tree_op_pow2 t op h)

/-- C8: starting from a fresh group's single-leaf tree, any sequence of
add_leaf and remove_leaf operations keeps the tree left-balanced: the
leaf capacity is always a power of two and at least the member count,
add_leaf extends the tree (by doubling) only when no blank leaf remains,
and remove_leaf only blanks a leaf without shrinking the tree. -/
theorem tree_left_balanced (kp0 : KeyPackage) (ops : List TreeOp) :
    (∃ k, (apply_tree_ops (initial_tree kp0) ops).size = 2 ^ k) ∧
    (apply_tree_ops (initial_tree kp0) ops).member_count ≤
      (apply_tree_ops (initial_tree kp0) ops).size ∧
    (∀ t : RatchetTree, ∀ kp : KeyPackage, t.has_blank = true →
      ((t.add_leaf kp).1).size = t.size) ∧
    (∀ t : RatchetTree, ∀ kp : KeyPackage, t.has_blank = false →
      ((t.add_leaf kp).1).size = 2 * t.size) ∧
    (∀ t : RatchetTree, ∀ i : Nat, (t.remove_leaf i).size = t.size) :=
  ⟨apply_tree_ops_pow2 (initial_tree kp0) ops ⟨0, rfl⟩,
   member_count_le_size _, add_leaf_size_blank, add_leaf_size_full, remove_leaf_size⟩

/-- Helper: looking up a joiner's init key among Welcome entries that
all carry the same joiner secret succeeds for every added member. -/
theorem lookup_map_init_key (kps : List KeyPackage) (kp : KeyPackage)
    (v : Secret) (h : kp ∈ kps) :
    (kps.map (fun k => (k.init_key, v))).lookup kp.init_key = some v := by
  induction kps with
  | nil => cases h
  | cons a rest ih =>
    rcases List.mem_cons.mp h with rfl | hmem
    · simp [List.lookup]
    · cases hbeq : (kp.init_key == a.init_key) with
      | true => simp [List.lookup, hbeq]
      | false => simpa [List.lookup, hbeq] using ih hmem

/-- Helper: when a Welcome holds a GroupSecrets entry for the caller's
init key, process_welcome succeeds with the session built from the
Welcome's snapshot and that joiner secret. -/
theorem process_welcome_entry (w : Welcome) (kp : KeyPackage) (js : Secret)
    (h : w.entries.lookup kp.init_key = some js) :
    process_welcome w kp = Except.ok
      { group_id := w.group_id
      , epoch := w.epoch
      , tree := w.tree
      , secrets := derive_epoch_secrets js
      , own_leaf := find_leaf_index w.tree kp
      , next_generation := 0
      , is_active := true
      , rng := 0 } := by
  unfold process_welcome
  rw [h]

/-- C4: when add_members returns a Commit and a Welcome (the committer
self-applying the Commit), process_welcome by any added joiner yields a
session whose epoch and group id equal the committer's post-commit epoch
and group id. -/
theorem process_welcome_matches_committer (s : GroupSession)
    (kps : List KeyPackage) (kp : KeyPackage) (c : Commit) (w : Welcome)
    (hmem : kp ∈ kps)
    (hok : (add_members s kps).2 = Except.ok (c, w)) :
    ∃ j : GroupSession, process_welcome w kp = Except.ok j ∧
      j.epoch = (add_members s kps).1.epoch ∧
      j.group_id = (add_members s kps).1.group_id := by
  unfold add_members at hok ⊢
  by_cases hact : s.is_active = true
  · rw [if_pos hact] at hok ⊢
    by_cases hdup : (kps.any fun kp => has_duplicate s.tree kp) = true
    · rw [if_pos hdup] at hok
      cases hok
    · rw [if_neg hdup] at hok ⊢
      simp only at hok
      obtain ⟨hc, hwel⟩ := (Prod.mk.injEq _ _ _ _).mp (Except.ok.inj hok)
      subst hwel
      have hl := lookup_map_init_key kps kp
        (derive_epoch_secrets (next_joiner_secret s
          (path_to_commit_secret (Secret.fresh s.rng)))).joiner_secret hmem
      exact ⟨_, process_welcome_entry _ kp _ hl, rfl, rfl⟩
  · rw [if_neg hact] at hok
    cases hok

/-- Evaluation of process_welcome_matches_committer at a concrete
committer session and one added joiner. -/
theorem process_welcome_matches_committer_witness :
    sample_added_kp ∈ [sample_added_kp] ∧
    (add_members sample_session [sample_added_kp]).2 = Except.ok (sample_cw.1, sample_cw.2) ∧
    ∃ j : GroupSession, process_welcome sample_cw.2 sample_added_kp = Except.ok j ∧
      j.epoch = (add_members sample_session [sample_added_kp]).1.epoch ∧
      j.group_id = (add_members sample_session [sample_added_kp]).1.group_id :=
  ⟨by decide, by rfl,
   process_welcome_matches_committer sample_session [sample_added_kp] sample_added_kp
     sample_cw.1 sample_cw.2 (by decide) (by rfl)⟩

/-- C9 counterexample: a freshly created group exists in the context and
yet get_epoch returns the error sentinel 0, because a fresh group's
epoch is 0; so 0 is not returned only for missing groups. -/
theorem get_epoch_zero_for_existing_group :
    ((create_group ⟨[], 0⟩ [7]).1.groups.lookup (create_group ⟨[], 0⟩ [7]).2).isSome = true ∧
    get_epoch (create_group ⟨[], 0⟩ [7]).1 (create_group ⟨[], 0⟩ [7]).2 = 0 := by
  constructor <;> rfl

/-- C9 (amended): get_epoch returns 0 when the requested group is absent
and the group's current epoch when present; since a fresh group sits at
epoch 0, a return of 0 does not distinguish a missing group from an
existing group still at epoch 0. -/
theorem get_epoch_lookup_spec (ctx : MLSContext) (gid : List Nat) :
    (ctx.groups.lookup gid = none → get_epoch ctx gid = 0) ∧
    (∀ s : GroupSession, ctx.groups.lookup gid = some s → get_epoch ctx gid = s.epoch) := by
  constructor
  · intro h
    unfold get_epoch
    rw [h]
  · intro s h
    unfold get_epoch
    rw [h]

end Mls
